import Mathlib

/-!
Verification development for the `cliffy-provider-gh-releases` upgrade engine
(`src/mod.ts`).  The TypeScript source is shallowly embedded below:

* pure computations (`latestSemVerFirst`, repository splitting, version
  filtering and sorting, asset-request construction, error-code arithmetic)
  become Lean functions;
* the filesystem is an association list from paths to file contents, and the
  stateful parts of the provider (`cleanOldVersions`, the install loop of
  `upgrade`) become explicit state-passing functions over it;
* the network is an oracle recorded in an environment structure
  (`UpgradeEnv`); `upgrade`, `getVersions` and the constructor become
  functions from that environment to an event trace (network calls, error-hook
  invocations, completion) together with an `Except` outcome, mirroring the
  source's control flow branch by branch;
* the external collaborators (`@std/semver`, `Array.prototype.sort`, the
  Octokit client, `walkSync`) are modelled at the boundary the source uses:
  `tryParse`/`compare` implement the strict SemVer 2.0.0 grammar and
  precedence of `@std/semver`; `Array.prototype.sort` is modelled as a stable
  insertion sort (ECMAScript requires stability; for a consistent comparator
  every stable sort yields the same list, and on short arrays V8 itself runs a
  stable binary insertion sort); the Octokit client yields a response with an
  HTTP status, as the source's own status checks assume, and may instead
  throw, which the environment flags model.
-/

/-! ## Character-list utilities -/

/-- Split a character list at every occurrence of the separator, like
`String.prototype.split` on a one-character separator. -/
def splitOnChar (sep : Char) : List Char → List (List Char)
  | [] => [[]]
  | c :: rest =>
    let r := splitOnChar sep rest
    if c = sep then [] :: r
    else
      match r with
      | [] => [[c]]
      | h :: t => (c :: h) :: t

/-- Break a character list at the first occurrence of `sep`: returns the part
before it and, when `sep` occurs, the part after it. -/
def breakAtChar (sep : Char) : List Char → List Char × Option (List Char)
  | [] => ([], none)
  | c :: rest =>
    if c = sep then ([], some rest)
    else
      let r := breakAtChar sep rest
      (c :: r.1, r.2)

/-- Leftmost-occurrence splitter: `splitFirstAux pat cs` returns the part of
`cs` before the first occurrence of `pat` and the part after it, or `none`
when `pat` does not occur. -/
def splitFirstAux (pat : List Char) : List Char → Option (List Char × List Char)
  | [] => if pat.isEmpty then some ([], []) else none
  | c :: rest =>
    if pat.isPrefixOf (c :: rest) then some ([], (c :: rest).drop pat.length)
    else
      match splitFirstAux pat rest with
      | some (before, after) => some (c :: before, after)
      | none => none

/-- Model of JavaScript `String.prototype.replace` with a plain-string
pattern: replaces the first occurrence only. -/
def replaceFirst (s pat rep : String) : String :=
  match splitFirstAux pat.data s.data with
  | some (before, after) => String.mk (before ++ rep.data ++ after)
  | none => s

/-! ## SemVer: boundary model of the external collaborator `@std/semver`

`tryParse` implements the strict SemVer 2.0.0 grammar
`major.minor.patch(-prerelease)?(+build)?` (no leading `v`, numeric
identifiers without leading zeros); `compare` implements SemVer precedence
(numeric core, then prerelease identifiers; build metadata ignored).  This is
the contract the source uses through `semver.tryParse` / `semver.compare`. -/

/-- A prerelease identifier: numeric or alphanumeric. -/
inductive PreId where
  | num : Nat → PreId
  | str : String → PreId
deriving DecidableEq

structure SemVer where
  major : Nat
  minor : Nat
  patch : Nat
  prerelease : List PreId
  build : List String
deriving DecidableEq

/-- Characters allowed in SemVer identifiers. -/
def isIdentChar (c : Char) : Bool := c.isDigit || c.isAlpha || c = '-'

/-- Decimal value of a digit list. -/
def digitsToNat (cs : List Char) : Nat :=
  cs.foldl (fun n c => n * 10 + (c.toNat - 48)) 0

/-- Parse a SemVer numeric identifier: digits only, no leading zero. -/
def parseNumericId (cs : List Char) : Option Nat :=
  if cs ≠ [] ∧ cs.all Char.isDigit ∧ (cs = ['0'] ∨ cs.head? ≠ some '0') then
    some (digitsToNat cs)
  else none

/-- Parse one prerelease identifier. -/
def parsePreId (cs : List Char) : Option PreId :=
  if cs.isEmpty then none
  else if cs.all Char.isDigit then (parseNumericId cs).map PreId.num
  else if cs.all isIdentChar then some (PreId.str (String.mk cs))
  else none

/-- Parse one build identifier (leading zeros allowed). -/
def parseBuildId (cs : List Char) : Option String :=
  if cs ≠ [] ∧ cs.all isIdentChar then some (String.mk cs) else none

/-- Model of `semver.tryParse`: strict SemVer 2.0.0, `none` on anything
else. -/
def tryParse (s : String) : Option SemVer :=
  let afterPlus := breakAtChar '+' s.data
  let afterDash := breakAtChar '-' afterPlus.1
  match splitOnChar '.' afterDash.1 with
  | [ma, mi, pa] => do
    let major ← parseNumericId ma
    let minor ← parseNumericId mi
    let patch ← parseNumericId pa
    let prerelease ←
      match afterDash.2 with
      | none => some []
      | some p => (splitOnChar '.' p).mapM parsePreId
    let build ←
      match afterPlus.2 with
      | none => some []
      | some b => (splitOnChar '.' b).mapM parseBuildId
    some { major, minor, patch, prerelease, build }
  | _ => none

/-- Three-way comparison on `Nat`. -/
def compareNat (a b : Nat) : Ordering :=
  if a < b then .lt else if b < a then .gt else .eq

/-- Lexicographic comparison of character lists by code point (the ASCII
fragment of the JavaScript string order used on identifiers). -/
def compareCharList : List Char → List Char → Ordering
  | [], [] => .eq
  | [], _ :: _ => .lt
  | _ :: _, [] => .gt
  | a :: as, b :: bs => (compareNat a.toNat b.toNat).then (compareCharList as bs)

/-- SemVer precedence on single prerelease identifiers: numeric identifiers
compare numerically and are lower than alphanumeric ones. -/
def compareIdent (a b : PreId) : Ordering :=
  match a, b with
  | .num m, .num n => compareNat m n
  | .num _, .str _ => .lt
  | .str _, .num _ => .gt
  | .str x, .str y => compareCharList x.data y.data

/-- Elementwise prerelease comparison; a list that runs out first is lower. -/
def comparePreIds : List PreId → List PreId → Ordering
  | [], [] => .eq
  | [], _ :: _ => .lt
  | _ :: _, [] => .gt
  | a :: as, b :: bs => (compareIdent a b).then (comparePreIds as bs)

/-- Top-level prerelease comparison: a release (empty prerelease list) has
higher precedence than any prerelease. -/
def comparePre (a b : List PreId) : Ordering :=
  match a, b with
  | [], [] => .eq
  | [], _ :: _ => .gt
  | _ :: _, [] => .lt
  | _, _ => comparePreIds a b

/-- Model of `semver.compare`: SemVer precedence, build metadata ignored. -/
def compareSemVer (a b : SemVer) : Ordering :=
  (compareNat a.major b.major).then
    ((compareNat a.minor b.minor).then
      ((compareNat a.patch b.patch).then (comparePre a.prerelease b.prerelease)))

/-- The `-1 / 0 / 1` value `semver.compare` returns. -/
def orderingToInt : Ordering → Int
  | .lt => -1
  | .eq => 0
  | .gt => 1

/-- `latestSemVerFirst` from `src/mod.ts` lines 91-100: the comparator passed
to `Array.prototype.sort`; compares two parsable tags in descending SemVer
order and returns `0` (preserve order) when either side fails to parse. -/
def latestSemVerFirst (a b : String) : Int :=
  match tryParse a, tryParse b with
  | some aParsed, some bParsed => orderingToInt (compareSemVer bParsed aParsed)
  | _, _ => 0

/-- A tag is parsable when `semver.tryParse` succeeds on it. -/
def isParsableTag (s : String) : Bool := (tryParse s).isSome

/-- Stable insertion of one element: `a` is placed before the first element
`b` it need not follow (`comparator a b ≤ 0`), which is where every stable
ECMAScript sort leaves it. -/
def sortedInsert (a : String) : List String → List String
  | [] => [a]
  | b :: l => if latestSemVerFirst a b ≤ 0 then a :: b :: l else b :: sortedInsert a l

/-- Boundary model of `Array.prototype.sort` applied to `latestSemVerFirst`:
a stable insertion sort.  ECMAScript requires the sort to be stable, and for a
consistent comparator every stable sort produces the same list; on short
arrays V8 itself runs a stable binary insertion sort, with which this model
agrees on the mixed-parsability examples below. -/
def jsSort : List String → List String
  | [] => []
  | a :: l => sortedInsert a (jsSort l)

/-! ## Releases, errors and error codes -/

/-- The stash-suffix marker `OLD_VERSION_TAG` (`src/mod.ts` line 18). -/
def OLD_VERSION_TAG : String := ".GHR_OLD."

/-- The fields of a remote release the source reads (`release.draft`,
`release.prerelease`, `release.tag_name`). -/
structure Release where
  tag_name : String
  draft : Bool
  prerelease : Bool
deriving DecidableEq

/-- One downloadable asset of a release: name and numeric id. -/
structure ReleaseAsset where
  name : String
  id : Nat
deriving DecidableEq

/-- Model of `GHRError`: message, numeric code, and — as the slice of the
metadata bag the claims are about — the code of a caught `GHRError` stored
under `metadata.caught` when the error wraps another one. -/
structure GHRErr where
  message : String
  code : Nat
  caughtCode : Option Nat := none
deriving DecidableEq

/-- Number of decimal digits of `n`, by structural recursion on a fuel
argument (`decimalLenAux n n` suffices since `n / 10 < n` for `n ≥ 10`). -/
def decimalLenAux : Nat → Nat → Nat
  | 0, _ => 1
  | fuel + 1, n => if n < 10 then 1 else decimalLenAux fuel (n / 10) + 1

def decimalLen (n : Nat) : Nat := decimalLenAux n n

/-- Model of `` parseInt(`d${status}`) ``: the decimal concatenation of a
digit and an HTTP status (`d` followed by the decimal digits of
`status`). -/
def concatCode (d status : Nat) : Nat :=
  d * 10 ^ decimalLen status + status

/-- The release-list filter predicate of `getVersions` (`src/mod.ts` lines
465-475): drafts are never kept; prereleases only when the prerelease option
is set. -/
def keepRelease (includePrerelease : Bool) (r : Release) : Bool :=
  if r.draft then false
  else if r.prerelease then includePrerelease
  else true

/-- The version list computed by `getVersions` on a 200 release-list
response: filter, map to `tag_name`, sort with `latestSemVerFirst`. -/
def computeVersions (includePrerelease : Bool) (releases : List Release) : List String :=
  jsSort ((releases.filter (keepRelease includePrerelease)).map Release.tag_name)

/-! ## The filesystem model

A filesystem is an association list from absolute paths to file contents.
`Deno.renameSync` moves the content at the source path to the destination
path (overwriting it) and fails with `NotFound` — the only failure the model
has — when the source path is absent.  Directories, permissions (`chmodSync`)
and I/O races are outside the model. -/

def FS := List (String × String)
deriving DecidableEq

/-- First-match association-list lookup (also models JavaScript object
indexing, e.g. `osAssetMap[Deno.build.os]`, whose keys are unique). -/
def assocLookup (m : List (String × String)) (k : String) : Option String :=
  (m.find? (fun e => e.1 == k)).map (fun e => e.2)

def FS.lookup (fs : FS) (p : String) : Option String := assocLookup fs p

def FS.erase (fs : FS) (p : String) : FS :=
  List.filter (fun e => !(e.1 == p)) fs

def FS.insert (fs : FS) (p c : String) : FS := (p, c) :: fs.erase p

/-- Model of `Deno.renameSync`: `none` is the `NotFound` failure. -/
def renameSync (fs : FS) (src dst : String) : Option FS :=
  match fs.lookup src with
  | none => none
  | some c => some ((fs.erase src).insert dst c)

/-- A `walkSync` entry: a path and whether it is a regular file. -/
structure WalkEntry where
  path : String
  isFile : Bool
deriving DecidableEq

/-- The body of the install loop of `upgrade` (`src/mod.ts` lines 365-397)
for one walked entry: compute the destination path by replacing the staging
prefix, stash any existing destination file under `OLD_VERSION_TAG`
(tolerating only `NotFound`), then rename the staged file into place (code 8
on failure).  `chmodSync` touches permissions only, which the filesystem
model does not represent. -/
def installEntry (stagingDir destinationDir : String) (fs : FS) (e : WalkEntry) :
    Except GHRErr FS :=
  if e.isFile then
    let finalPath := replaceFirst e.path stagingDir destinationDir
    let fs1 :=
      match renameSync fs finalPath (finalPath ++ OLD_VERSION_TAG) with
      | some fsStashed => fsStashed
      | none => fs
    match renameSync fs1 e.path finalPath with
    | some fs2 => .ok fs2
    | none => .error { message := "Failed to install new version", code := 8 }
  else .ok fs

/-- The whole install loop over the walked staging entries. -/
def installAll (stagingDir destinationDir : String) (fs : FS) :
    List WalkEntry → Except GHRErr FS
  | [] => .ok fs
  | e :: rest =>
    match installEntry stagingDir destinationDir fs e with
    | .ok fs2 => installAll stagingDir destinationDir fs2 rest
    | .error err => .error err

/-- Model of `cleanOldVersions` (`src/mod.ts` lines 179-200): walk the
destination directory (here: the snapshot of all paths) and delete every
entry whose path contains the stash marker.  `Deno.removeSync` on a path that
has disappeared raises `NotFound`, which the source tolerates; in the model
the corresponding erase is a no-op. -/
def pathHasOldTag (p : String) : Bool :=
  (splitFirstAux OLD_VERSION_TAG.data p.data).isSome

def cleanOldVersions (fs : FS) : FS :=
  (fs.map (fun e => e.1)).foldl
    (fun acc p => if pathHasOldTag p then acc.erase p else acc) fs

/-! ## The provider model

The network is an oracle: `UpgradeEnv` records, for each request the source
can issue, whether the client call throws (a network failure caught by the
surrounding `try`/`catch`, where the source has one) and otherwise the HTTP
status and payload of the response.  Each run is summarized as the list of
events it emits — network calls, invocations of the (assigned) `onError`
hook, the response-classification branch, extraction and completion — paired
with the `Except` outcome: `.error e` models `throw e` reaching the caller. -/

/-- Events of one provider run. -/
inductive Ev where
  | netListReleases (status : Nat)
  | netReleaseMeta (tag : Option String) (status : Nat)
  | netAssetFetch (status : Nat)
  | hookError (code : Nat)
  | classifyFail (status : Nat) (hasBody : Bool)
  | inflateCall
  | complete (toVersion : Option String) (fromVersion : Option String)
deriving DecidableEq

/-- The oracle for one `upgrade` run. -/
structure UpgradeEnv where
  os : String
  osAssetMap : List (String × String)
  includePrerelease : Bool
  destinationDir : String
  listNetFails : Bool
  listStatus : Nat
  releases : List Release
  metaStatus : Nat
  releaseAssets : List ReleaseAsset
  assetNetFails : Bool
  assetStatus : Nat
  assetHasBody : Bool
  inflateOk : Bool
  stagingDir : String
  stagingWalk : List WalkEntry
  fs : FS

/-- The result of `getVersions`: the `versions`/`latest` object.  The source
declares `latest` as a string but computes `versions[0]`, which is
`undefined` on an empty list; the model makes that `Option`. -/
structure GithubReleaseVersions where
  versions : List String
  latest : Option String
deriving DecidableEq

instance {e a : Type} [DecidableEq e] [DecidableEq a] : DecidableEq (Except e a) := fun x y =>
  match x, y with
  | .ok u, .ok v => if h : u = v then .isTrue (by rw [h]) else .isFalse (by intro hc; cases hc; exact h rfl)
  | .error u, .error v => if h : u = v then .isTrue (by rw [h]) else .isFalse (by intro hc; cases hc; exact h rfl)
  | .ok _, .error _ => .isFalse (by intro hc; cases hc)
  | .error _, .ok _ => .isFalse (by intro hc; cases hc)

/-- The hook invocations and outcome of one `getVersions` call. -/
structure VersionsOutcome where
  hooks : List GHRErr
  outcome : Except GHRErr GithubReleaseVersions
deriving DecidableEq

/-- Model of `getVersions` (`src/mod.ts` lines 449-531).  The whole body sits
in a `try` whose `catch` wraps anything thrown — network failures of the
client call, but also the sub-coded errors the status branches themselves
throw — into a fresh code-5 `GHRError` (with the thrown error under
`metadata.caught`) that is what the caller receives. -/
def getVersions (includePrerelease : Bool) (netFails : Bool) (status : Nat)
    (releases : List Release) : VersionsOutcome :=
  if netFails then
    let e5 : GHRErr :=
      { message := "Network Error: Failed to fetch Release List from GitHub.", code := 5 }
    { hooks := [e5], outcome := .error e5 }
  else if status == 200 then
    let versions := computeVersions includePrerelease releases
    { hooks := [], outcome := .ok { versions, latest := versions.head? } }
  else
    let inner : GHRErr :=
      if status == 404 then { message := "GitHub Release List Not Found", code := 2404 }
      else if status == 403 then
        { message := "GitHub Release List Request Forbidden", code := 2403 }
      else { message := "GitHub Release List Request Failed", code := concatCode 2 status }
    let e5 : GHRErr :=
      { message := "Network Error: Failed to fetch Release List from GitHub.", code := 5,
        caughtCode := some inner.code }
    { hooks := [inner, e5], outcome := .error e5 }

/-- Model of `getOctokitAssetRequest` (`src/mod.ts` lines 224-248): look the
asset name up in the OS asset map under `Deno.build.os`, find the release
asset with exactly that name (an `undefined` lookup matches nothing), and
return its id; throws the code-3 `GHRError` — without any `onError` call —
when no asset matches. -/
def getOctokitAssetRequest (os : String) (osAssetMap : List (String × String))
    (assets : List ReleaseAsset) : Except GHRErr Nat :=
  let assetName := assocLookup osAssetMap os
  match assets.find? (fun a => (some a.name : Option String) == assetName) with
  | none => .error { message := "Failed to find asset for current OS", code := 3 }
  | some asset => .ok asset.id

/-- The asset fetch-and-classify phase of `upgrade` (`src/mod.ts` lines
302-447): the octokit asset request inside `try`/`catch` (a non-200 status
throws a code-4 error that its own `catch` re-wraps into another code-4
error), the `Response` wrapper built from the 200 response, the
body-and-status branch, extraction, the install loop, and completion. -/
def assetPhase (env : UpgradeEnv) (toResolved fromVersion : Option String) :
    List Ev × Except GHRErr FS :=
  let evs := [Ev.netAssetFetch env.assetStatus]
  if env.assetNetFails then
    let e : GHRErr :=
      { message := "Network Error: Failed to fetch GitHub Release Asset", code := 4 }
    (evs ++ [Ev.hookError 4], .error e)
  else if env.assetStatus != 200 then
    let outer : GHRErr :=
      { message := "Network Error: Failed to fetch GitHub Release Asset", code := 4,
        caughtCode := some 4 }
    (evs ++ [Ev.hookError 4, Ev.hookError 4], .error outer)
  else
    let respStatus := env.assetStatus
    if env.assetHasBody && (respStatus == 200) then
      let evs2 := evs ++ [Ev.inflateCall]
      if env.inflateOk then
        match installAll env.stagingDir env.destinationDir env.fs env.stagingWalk with
        | .ok fs2 => (evs2 ++ [Ev.complete toResolved fromVersion], .ok fs2)
        | .error e => (evs2 ++ [Ev.hookError e.code], .error e)
      else (evs2 ++ [Ev.hookError 6], .error { message := "Failed to inflate response", code := 6 })
    else
      let evs2 := evs ++ [Ev.classifyFail respStatus env.assetHasBody]
      if respStatus == 404 then
        (evs2 ++ [Ev.hookError 1404],
          .error { message := "GitHub Release Asset Not Found", code := 1404 })
      else if respStatus == 403 then
        (evs2 ++ [Ev.hookError 1403],
          .error { message := "GitHub Release Asset Request Forbidden", code := 1403 })
      else
        (evs2 ++ [Ev.hookError (concatCode 1 respStatus)],
          .error { message := "GitHub Release Asset Request Failed",
                   code := concatCode 1 respStatus })

/-- Model of `upgrade` (`src/mod.ts` lines 251-447): list the releases,
resolve "latest" to `versions.latest` (possibly absent), fetch the release
metadata for the resolved tag (code 4 on a non-200 status), build the asset
request (code 3, no hook, when no asset matches), then run the asset
phase. -/
def upgrade (env : UpgradeEnv) (toTarget : String) (fromVersion : Option String) :
    List Ev × Except GHRErr FS :=
  let gv := getVersions env.includePrerelease env.listNetFails env.listStatus env.releases
  let evs0 := Ev.netListReleases env.listStatus :: gv.hooks.map (fun e => Ev.hookError e.code)
  match gv.outcome with
  | .error e => (evs0, .error e)
  | .ok versionsObj =>
    let toResolved : Option String :=
      if toTarget == "latest" then versionsObj.latest else some toTarget
    let evs1 := evs0 ++ [Ev.netReleaseMeta toResolved env.metaStatus]
    if env.metaStatus != 200 then
      (evs1 ++ [Ev.hookError 4],
        .error { message := "Failed to fetch release metadata", code := 4 })
    else
      match getOctokitAssetRequest env.os env.osAssetMap env.releaseAssets with
      | .error e => (evs1, .error e)
      | .ok _assetId =>
        let phase := assetPhase env toResolved fromVersion
        (evs1 ++ phase.1, phase.2)

/-- The hook invocations and outcome of one constructor run. -/
structure CtorOutcome where
  hookCalls : List Nat
  result : Except GHRErr Unit
deriving DecidableEq

/-- Model of the optional-chaining call `this.onError?.(error)`: it invokes
the hook only when the `onError` field has already been assigned. -/
def optHookCall (onErrorAssigned : Bool) (e : GHRErr) : List Nat :=
  if onErrorAssigned then [e.code] else []

/-- Model of the `GithubReleasesProvider` constructor (`src/mod.ts` lines
128-177) on the repository string: split on `/`, and reject when owner or
repo is falsy (missing or empty).  The `onError` field is assigned only at
the end of the constructor (line 176), after this check, so the
`this.onError?.(error)` on line 141 runs while the field is still
`undefined`: `onErrorAssigned` is `false` here. -/
def constructorRun (repository : String) : CtorOutcome :=
  let parts := (splitOnChar '/' repository.data).map String.mk
  let owner := parts.headD ""
  let repo := (parts.drop 1).headD ""
  let onErrorAssigned := false
  if owner == "" || repo == "" then
    let e : GHRErr :=
      { message := "repository must be in the format owner/repo", code := 1 }
    { hookCalls := optHookCall onErrorAssigned e, result := .error e }
  else { hookCalls := [], result := .ok () }

/-- The release-list band code the spec describes, sub-coded by HTTP status
(`ERROR_CODE_MAP` entries 2404/2403 and the `` parseInt(`2${status}`) ``
fallback). -/
def listBandCode (status : Nat) : Nat :=
  if status = 404 then 2404 else if status = 403 then 2403 else concatCode 2 status

/-! ## Concrete fixtures used by the example runs below -/

/-- A healthy environment whose Asset Map has no entry for the running OS
(`linux`): both network calls succeed, but no release asset matches. -/
def envNoOsEntry : UpgradeEnv :=
  { os := "linux", osAssetMap := [("darwin", "demo-mac.tar.gz")], includePrerelease := false,
    destinationDir := "/home/user/bin", listNetFails := false, listStatus := 200,
    releases := [{ tag_name := "1.0.0", draft := false, prerelease := false }],
    metaStatus := 200, releaseAssets := [{ name := "demo-mac.tar.gz", id := 7 }],
    assetNetFails := false, assetStatus := 200, assetHasBody := true, inflateOk := true,
    stagingDir := "/tmp/stage", stagingWalk := [], fs := [] }

/-- A healthy environment whose remote release list is empty. -/
def envEmptyReleases : UpgradeEnv :=
  { os := "linux", osAssetMap := [("linux", "a.tar.gz")], includePrerelease := false,
    destinationDir := "/home/user/bin", listNetFails := false, listStatus := 200,
    releases := [],
    metaStatus := 200, releaseAssets := [{ name := "a.tar.gz", id := 1 }],
    assetNetFails := false, assetStatus := 200, assetHasBody := true, inflateOk := true,
    stagingDir := "/tmp/stage", stagingWalk := [], fs := [] }

/-- An environment whose asset download answers with HTTP 500. -/
def envAsset500 : UpgradeEnv :=
  { os := "linux", osAssetMap := [("linux", "a.tar.gz")], includePrerelease := false,
    destinationDir := "/home/user/bin", listNetFails := false, listStatus := 200,
    releases := [{ tag_name := "1.0.0", draft := false, prerelease := false }],
    metaStatus := 200, releaseAssets := [{ name := "a.tar.gz", id := 1 }],
    assetNetFails := false, assetStatus := 500, assetHasBody := true, inflateOk := true,
    stagingDir := "/tmp/stage", stagingWalk := [], fs := [] }

/-- An environment whose asset download answers 200 but with no body. -/
def envAssetNoBody : UpgradeEnv :=
  { os := "linux", osAssetMap := [("linux", "a.tar.gz")], includePrerelease := false,
    destinationDir := "/home/user/bin", listNetFails := false, listStatus := 200,
    releases := [{ tag_name := "1.0.0", draft := false, prerelease := false }],
    metaStatus := 200, releaseAssets := [{ name := "a.tar.gz", id := 1 }],
    assetNetFails := false, assetStatus := 200, assetHasBody := false, inflateOk := true,
    stagingDir := "/tmp/stage", stagingWalk := [], fs := [] }

/-! ## Lemmas about the filesystem model -/

theorem FS.lookup_cons (e : String × String) (fs : FS) (q : String) :
    FS.lookup (e :: fs) q = bif e.1 == q then some e.2 else FS.lookup fs q := by
  cases he : e.1 == q <;> simp [FS.lookup, assocLookup, List.find?, he]

theorem FS.erase_cons (e : String × String) (fs : FS) (p : String) :
    FS.erase (e :: fs) p = bif e.1 == p then FS.erase fs p else e :: FS.erase fs p := by
  cases he : e.1 == p <;> simp [FS.erase, List.filter_cons, he]

theorem FS.lookup_erase_ne (fs : FS) (p q : String) (h : q ≠ p) :
    (fs.erase p).lookup q = fs.lookup q := by
  induction fs with
  | nil => rfl
  | cons e fs ih =>
    rw [FS.erase_cons]
    cases hep : e.1 == p with
    | true =>
      have heq : (e.1 == q) = false := by
        have : e.1 = p := by simpa using hep
        simp [this]
        exact fun hq => h hq.symm
      simp only [cond_true]
      rw [ih, FS.lookup_cons, heq, cond_false]
    | false =>
      simp only [cond_false]
      rw [FS.lookup_cons, FS.lookup_cons, ih]

theorem FS.lookup_insert_self (fs : FS) (p c : String) :
    (fs.insert p c).lookup p = some c := by
  show FS.lookup ((p, c) :: fs.erase p) p = some c
  rw [FS.lookup_cons]
  simp

theorem FS.lookup_insert_ne (fs : FS) (p q c : String) (h : q ≠ p) :
    (fs.insert p c).lookup q = fs.lookup q := by
  show FS.lookup ((p, c) :: fs.erase p) q = fs.lookup q
  rw [FS.lookup_cons]
  have hpq : (p == q) = false := by
    simp
    exact fun hq => h hq.symm
  rw [hpq, cond_false, FS.lookup_erase_ne fs p q h]

theorem isPrefixOf_append_self (l t : List Char) : l.isPrefixOf (l ++ t) = true := by
  induction l with
  | nil => cases t <;> simp [List.isPrefixOf]
  | cons a as ih => simp [List.isPrefixOf, ih]

theorem splitFirstAux_append (pat rest : List Char) :
    splitFirstAux pat (pat ++ rest) = some ([], rest) := by
  cases pat with
  | nil => cases rest <;> simp [splitFirstAux]
  | cons p ps =>
    have hpre := isPrefixOf_append_self (p :: ps) rest
    have hdrop := List.drop_left (p :: ps) rest
    simp only [List.cons_append] at hpre hdrop ⊢
    simp [splitFirstAux, hpre, hdrop]

theorem replaceFirst_append (pat rel rep : String) :
    replaceFirst (pat ++ rel) pat rep = rep ++ rel := by
  have hdata : (pat ++ rel).data = pat.data ++ rel.data := rfl
  simp only [replaceFirst, hdata, splitFirstAux_append]
  rfl

/-! ## Lemmas about the stale-file reaper -/

theorem foldl_erase_tagged (ps : List String) (acc : FS) :
    ps.foldl (fun acc p => if pathHasOldTag p then acc.erase p else acc) acc
      = List.filter (fun e => !(pathHasOldTag e.1 && ps.contains e.1)) acc := by
  induction ps generalizing acc with
  | nil =>
    have hpred : (fun e : String × String => !(pathHasOldTag e.1 && List.contains [] e.1))
        = fun _ => true := by
      funext e
      simp
    simp [hpred]
  | cons p ps ih =>
    rw [List.foldl_cons, ih]
    by_cases hp : pathHasOldTag p = true
    · rw [if_pos hp]
      show List.filter _ (List.filter _ acc) = _
      rw [List.filter_filter]
      apply List.filter_congr
      intro e _
      by_cases he : e.1 = p
      · rw [he]
        simp [hp, List.contains_cons]
      · simp [List.contains_cons, he]
    · have hp' : pathHasOldTag p = false := by simpa using hp
      rw [if_neg hp]
      apply List.filter_congr
      intro e _
      by_cases he : e.1 = p
      · rw [he]
        simp [hp', List.contains_cons]
      · simp [List.contains_cons, he]

theorem cleanOldVersions_eq_filter (fs : FS) :
    cleanOldVersions fs = List.filter (fun e => !(pathHasOldTag e.1)) fs := by
  show (fs.map (fun e => e.1)).foldl
      (fun acc p => if pathHasOldTag p then acc.erase p else acc) fs = _
  rw [foldl_erase_tagged]
  apply List.filter_congr
  intro e he
  have hmem : e.1 ∈ fs.map (fun e => e.1) := List.mem_map_of_mem _ he
  have hcontains : (fs.map (fun e => e.1)).contains e.1 = true :=
    List.elem_eq_true_of_mem hmem
  rw [hcontains, Bool.and_true]

/-! ## Order theory of the SemVer comparator -/

theorem compareNat_eq_iff (a b : Nat) : compareNat a b = .eq ↔ a = b := by
  unfold compareNat
  split_ifs with h1 h2 <;> simp <;> omega

theorem compareNat_lt_iff (a b : Nat) : compareNat a b = .lt ↔ a < b := by
  unfold compareNat
  split_ifs with h1 h2 <;> simp <;> omega

theorem compareNat_swap (a b : Nat) : compareNat a b = (compareNat b a).swap := by
  unfold compareNat
  split_ifs <;> first
    | rfl
    | omega

theorem compareNat_self (a : Nat) : compareNat a a = .eq := by
  simp [compareNat]

theorem charToNat_inj {a b : Char} (h : a.toNat = b.toNat) : a = b :=
  Char.ext (UInt32.ext h)

theorem compareCharList_eq_iff (a b : List Char) : compareCharList a b = .eq ↔ a = b := by
  induction a generalizing b with
  | nil => cases b <;> simp [compareCharList]
  | cons x xs ih =>
    cases b with
    | nil => simp [compareCharList]
    | cons y ys =>
      simp only [compareCharList, Ordering.then_eq_eq, compareNat_eq_iff, ih]
      constructor
      · rintro ⟨h1, h2⟩
        exact List.cons_eq_cons.mpr ⟨charToNat_inj h1, h2⟩
      · rintro h
        rcases List.cons_eq_cons.mp h with ⟨h1, h2⟩
        exact ⟨by rw [h1], h2⟩

theorem compareCharList_swap (a b : List Char) :
    compareCharList a b = (compareCharList b a).swap := by
  induction a generalizing b with
  | nil => cases b <;> simp [compareCharList, Ordering.swap]
  | cons x xs ih =>
    cases b with
    | nil => simp [compareCharList, Ordering.swap]
    | cons y ys =>
      simp only [compareCharList, Ordering.swap_then]
      rw [compareNat_swap x.toNat y.toNat, ih]

theorem compareCharList_lt_trans {a b c : List Char} (h1 : compareCharList a b = .lt)
    (h2 : compareCharList b c = .lt) : compareCharList a c = .lt := by
  induction a generalizing b c with
  | nil =>
    cases b with
    | nil => simp [compareCharList] at h1
    | cons y ys =>
      cases c with
      | nil => simp [compareCharList] at h2
      | cons z zs => simp [compareCharList]
  | cons x xs ih =>
    cases b with
    | nil => simp [compareCharList] at h1
    | cons y ys =>
      cases c with
      | nil => simp [compareCharList] at h2
      | cons z zs =>
        simp only [compareCharList, Ordering.then_eq_lt, compareNat_lt_iff,
          compareNat_eq_iff] at h1 h2 ⊢
        rcases h1 with h1 | ⟨h1e, h1r⟩ <;> rcases h2 with h2 | ⟨h2e, h2r⟩
        · exact Or.inl (Nat.lt_trans h1 h2)
        · exact Or.inl (h2e ▸ h1)
        · exact Or.inl (h1e ▸ h2)
        · exact Or.inr ⟨by omega, ih h1r h2r⟩

theorem compareCharList_self (a : List Char) : compareCharList a a = .eq :=
  (compareCharList_eq_iff a a).mpr rfl

theorem compareIdent_eq_iff (a b : PreId) : compareIdent a b = .eq ↔ a = b := by
  cases a <;> cases b <;>
    simp [compareIdent, compareNat_eq_iff, compareCharList_eq_iff, String.ext_iff]

theorem compareIdent_swap (a b : PreId) : compareIdent a b = (compareIdent b a).swap := by
  cases a with
  | num m =>
    cases b with
    | num n => exact compareNat_swap m n
    | str y => rfl
  | str x =>
    cases b with
    | num n => rfl
    | str y => exact compareCharList_swap x.data y.data

theorem compareIdent_lt_trans {a b c : PreId} (h1 : compareIdent a b = .lt)
    (h2 : compareIdent b c = .lt) : compareIdent a c = .lt := by
  cases a <;> cases b <;> cases c <;> simp_all [compareIdent, compareNat_lt_iff]
  · omega
  · exact compareCharList_lt_trans h1 h2

theorem compareIdent_self (a : PreId) : compareIdent a a = .eq :=
  (compareIdent_eq_iff a a).mpr rfl

theorem comparePreIds_eq_iff (a b : List PreId) : comparePreIds a b = .eq ↔ a = b := by
  induction a generalizing b with
  | nil => cases b <;> simp [comparePreIds]
  | cons x xs ih =>
    cases b with
    | nil => simp [comparePreIds]
    | cons y ys =>
      simp [comparePreIds, Ordering.then_eq_eq, compareIdent_eq_iff, ih]

theorem comparePreIds_swap (a b : List PreId) :
    comparePreIds a b = (comparePreIds b a).swap := by
  induction a generalizing b with
  | nil => cases b <;> simp [comparePreIds, Ordering.swap]
  | cons x xs ih =>
    cases b with
    | nil => simp [comparePreIds, Ordering.swap]
    | cons y ys =>
      simp only [comparePreIds, Ordering.swap_then]
      rw [compareIdent_swap x y, ih]

theorem comparePreIds_lt_trans {a b c : List PreId} (h1 : comparePreIds a b = .lt)
    (h2 : comparePreIds b c = .lt) : comparePreIds a c = .lt := by
  induction a generalizing b c with
  | nil =>
    cases b with
    | nil => simp [comparePreIds] at h1
    | cons y ys =>
      cases c with
      | nil => simp [comparePreIds] at h2
      | cons z zs => simp [comparePreIds]
  | cons x xs ih =>
    cases b with
    | nil => simp [comparePreIds] at h1
    | cons y ys =>
      cases c with
      | nil => simp [comparePreIds] at h2
      | cons z zs =>
        simp only [comparePreIds, Ordering.then_eq_lt, compareIdent_eq_iff] at h1 h2 ⊢
        rcases h1 with h1 | ⟨h1e, h1r⟩ <;> rcases h2 with h2 | ⟨h2e, h2r⟩
        · exact Or.inl (compareIdent_lt_trans h1 h2)
        · exact Or.inl (h2e ▸ h1)
        · exact Or.inl (h1e ▸ h2)
        · exact Or.inr ⟨h1e.trans h2e, ih h1r h2r⟩

theorem comparePreIds_self (a : List PreId) : comparePreIds a a = .eq :=
  (comparePreIds_eq_iff a a).mpr rfl

theorem comparePre_eq_iff (a b : List PreId) : comparePre a b = .eq ↔ a = b := by
  cases a <;> cases b <;> simp [comparePre, comparePreIds_eq_iff]

theorem comparePre_swap (a b : List PreId) : comparePre a b = (comparePre b a).swap := by
  cases a with
  | nil => cases b <;> rfl
  | cons x xs =>
    cases b with
    | nil => rfl
    | cons y ys => exact comparePreIds_swap (x :: xs) (y :: ys)

theorem comparePre_lt_trans {a b c : List PreId} (h1 : comparePre a b = .lt)
    (h2 : comparePre b c = .lt) : comparePre a c = .lt := by
  cases a with
  | nil => cases b <;> simp [comparePre] at h1
  | cons x xs =>
    cases b with
    | nil => cases c <;> simp [comparePre] at h2
    | cons y ys =>
      cases c with
      | nil => simp [comparePre]
      | cons z zs =>
        simp only [comparePre] at h1 h2 ⊢
        exact comparePreIds_lt_trans h1 h2

theorem comparePre_self (a : List PreId) : comparePre a a = .eq :=
  (comparePre_eq_iff a a).mpr rfl

theorem compareNat_congrL {x y z : Nat} (h : compareNat x y = .eq) :
    compareNat x z = compareNat y z := by
  rw [(compareNat_eq_iff x y).mp h]

theorem compareNat_congrR {x y z : Nat} (h : compareNat y z = .eq) :
    compareNat x y = compareNat x z := by
  rw [(compareNat_eq_iff y z).mp h]

theorem thenCompLtTrans {γ : Type} (f g : γ → γ → Ordering)
    (hf : ∀ a b c, f a b = .lt → f b c = .lt → f a c = .lt)
    (hfL : ∀ a b c, f a b = .eq → f a c = f b c)
    (hfR : ∀ a b c, f b c = .eq → f a b = f a c)
    (hg : ∀ a b c, g a b = .lt → g b c = .lt → g a c = .lt)
    (a b c : γ) (h1 : (f a b).then (g a b) = .lt) (h2 : (f b c).then (g b c) = .lt) :
    (f a c).then (g a c) = .lt := by
  rw [Ordering.then_eq_lt] at h1 h2 ⊢
  rcases h1 with h1 | ⟨h1e, h1g⟩ <;> rcases h2 with h2 | ⟨h2e, h2g⟩
  · exact Or.inl (hf a b c h1 h2)
  · refine Or.inl ?_
    rw [hfR a b c h2e] at h1
    exact h1
  · refine Or.inl ?_
    rw [hfL a b c h1e]
    exact h2
  · refine Or.inr ⟨?_, hg a b c h1g h2g⟩
    rw [hfL a b c h1e]
    exact h2e

theorem compareSemVer_lt_trans {a b c : SemVer} (h1 : compareSemVer a b = .lt)
    (h2 : compareSemVer b c = .lt) : compareSemVer a c = .lt := by
  have hpatch : ∀ x y z : SemVer,
      (compareNat x.patch y.patch).then (comparePre x.prerelease y.prerelease) = .lt →
      (compareNat y.patch z.patch).then (comparePre y.prerelease z.prerelease) = .lt →
      (compareNat x.patch z.patch).then (comparePre x.prerelease z.prerelease) = .lt := by
    intro x y z hx hy
    exact thenCompLtTrans (fun u v => compareNat u.patch v.patch)
      (fun u v => comparePre u.prerelease v.prerelease)
      (fun u v w ha hb => by
        rw [compareNat_lt_iff] at ha hb ⊢
        omega)
      (fun u v w ha => by
        dsimp only at ha ⊢
        exact compareNat_congrL ha)
      (fun u v w ha => by
        dsimp only at ha ⊢
        exact compareNat_congrR ha)
      (fun u v w ha hb => by
        dsimp only at ha hb ⊢
        exact comparePre_lt_trans ha hb)
      x y z hx hy
  have hminor : ∀ x y z : SemVer,
      (compareNat x.minor y.minor).then
        ((compareNat x.patch y.patch).then (comparePre x.prerelease y.prerelease)) = .lt →
      (compareNat y.minor z.minor).then
        ((compareNat y.patch z.patch).then (comparePre y.prerelease z.prerelease)) = .lt →
      (compareNat x.minor z.minor).then
        ((compareNat x.patch z.patch).then (comparePre x.prerelease z.prerelease)) = .lt := by
    intro x y z hx hy
    exact thenCompLtTrans (fun u v => compareNat u.minor v.minor)
      (fun u v => (compareNat u.patch v.patch).then (comparePre u.prerelease v.prerelease))
      (fun u v w ha hb => by
        rw [compareNat_lt_iff] at ha hb ⊢
        omega)
      (fun u v w ha => by
        dsimp only at ha ⊢
        exact compareNat_congrL ha)
      (fun u v w ha => by
        dsimp only at ha ⊢
        exact compareNat_congrR ha)
      hpatch x y z hx hy
  unfold compareSemVer at h1 h2 ⊢
  exact thenCompLtTrans (fun u v => compareNat u.major v.major)
    (fun u v => (compareNat u.minor v.minor).then
      ((compareNat u.patch v.patch).then (comparePre u.prerelease v.prerelease)))
    (fun u v w ha hb => by
      rw [compareNat_lt_iff] at ha hb ⊢
      omega)
    (fun u v w ha => by
      dsimp only at ha ⊢
      exact compareNat_congrL ha)
    (fun u v w ha => by
      dsimp only at ha ⊢
      exact compareNat_congrR ha)
    hminor a b c h1 h2

theorem compareSemVer_eq_parts {a b : SemVer} (h : compareSemVer a b = .eq) :
    a.major = b.major ∧ a.minor = b.minor ∧ a.patch = b.patch ∧
      a.prerelease = b.prerelease := by
  unfold compareSemVer at h
  simp only [Ordering.then_eq_eq, compareNat_eq_iff, comparePre_eq_iff] at h
  exact ⟨h.1, h.2.1, h.2.2.1, h.2.2.2⟩

theorem compareSemVer_congrL {a b c : SemVer} (h : compareSemVer a b = .eq) :
    compareSemVer a c = compareSemVer b c := by
  obtain ⟨e1, e2, e3, e4⟩ := compareSemVer_eq_parts h
  unfold compareSemVer
  rw [e1, e2, e3, e4]

theorem compareSemVer_congrR {a b c : SemVer} (h : compareSemVer b c = .eq) :
    compareSemVer a b = compareSemVer a c := by
  obtain ⟨e1, e2, e3, e4⟩ := compareSemVer_eq_parts h
  unfold compareSemVer
  rw [e1, e2, e3, e4]

theorem compareSemVer_swap (a b : SemVer) :
    compareSemVer a b = (compareSemVer b a).swap := by
  unfold compareSemVer
  rw [Ordering.swap_then, Ordering.swap_then, Ordering.swap_then,
    compareNat_swap a.major b.major, compareNat_swap a.minor b.minor,
    compareNat_swap a.patch b.patch, comparePre_swap a.prerelease b.prerelease]

theorem compareSemVer_self (a : SemVer) : compareSemVer a a = .eq := by
  unfold compareSemVer
  rw [compareNat_self, compareNat_self, compareNat_self, comparePre_self]
  rfl

theorem compareSemVer_ne_gt_trans {a b c : SemVer} (h1 : compareSemVer a b ≠ .gt)
    (h2 : compareSemVer b c ≠ .gt) : compareSemVer a c ≠ .gt := by
  cases hab : compareSemVer a b with
  | gt => exact absurd hab h1
  | eq =>
    rw [compareSemVer_congrL hab]
    exact h2
  | lt =>
    cases hbc : compareSemVer b c with
    | gt => exact absurd hbc h2
    | eq =>
      rw [← compareSemVer_congrR hbc, hab]
      simp
    | lt =>
      rw [compareSemVer_lt_trans hab hbc]
      simp

/-! ## The sort comparator on parsable tags -/

theorem latestSemVerFirst_le_iff {a b : String} {pa pb : SemVer}
    (ha : tryParse a = some pa) (hb : tryParse b = some pb) :
    (latestSemVerFirst a b ≤ 0 ↔ compareSemVer pb pa ≠ .gt) := by
  simp only [latestSemVerFirst, ha, hb]
  cases compareSemVer pb pa <;> simp [orderingToInt]

theorem isParsableTag_exists {a : String} (ha : isParsableTag a = true) :
    ∃ pa, tryParse a = some pa := by
  simpa [isParsableTag, Option.isSome_iff_exists] using ha

theorem latestSemVerFirst_total {a b : String} (ha : isParsableTag a = true)
    (hb : isParsableTag b = true) :
    latestSemVerFirst a b ≤ 0 ∨ latestSemVerFirst b a ≤ 0 := by
  obtain ⟨pa, hpa⟩ := isParsableTag_exists ha
  obtain ⟨pb, hpb⟩ := isParsableTag_exists hb
  rw [latestSemVerFirst_le_iff hpa hpb, latestSemVerFirst_le_iff hpb hpa]
  cases h : compareSemVer pb pa with
  | lt => exact Or.inl (by simp)
  | eq => exact Or.inl (by simp)
  | gt =>
    refine Or.inr ?_
    rw [compareSemVer_swap pa pb, h]
    decide

theorem latestSemVerFirst_trans {a b c : String} (ha : isParsableTag a = true)
    (hb : isParsableTag b = true) (hc : isParsableTag c = true)
    (h1 : latestSemVerFirst a b ≤ 0) (h2 : latestSemVerFirst b c ≤ 0) :
    latestSemVerFirst a c ≤ 0 := by
  obtain ⟨pa, hpa⟩ := isParsableTag_exists ha
  obtain ⟨pb, hpb⟩ := isParsableTag_exists hb
  obtain ⟨pc, hpc⟩ := isParsableTag_exists hc
  rw [latestSemVerFirst_le_iff hpa hpb] at h1
  rw [latestSemVerFirst_le_iff hpb hpc] at h2
  rw [latestSemVerFirst_le_iff hpa hpc]
  exact compareSemVer_ne_gt_trans h2 h1

theorem latestSemVerFirst_self {a : String} (ha : isParsableTag a = true) :
    latestSemVerFirst a a ≤ 0 := by
  obtain ⟨pa, hpa⟩ := isParsableTag_exists ha
  rw [latestSemVerFirst_le_iff hpa hpa, compareSemVer_self]
  decide

/-! ## Structure of the stable sort -/

theorem mem_sortedInsert {x a : String} {l : List String} :
    x ∈ sortedInsert a l ↔ x = a ∨ x ∈ l := by
  induction l with
  | nil => simp [sortedInsert]
  | cons b t ih =>
    by_cases h : latestSemVerFirst a b ≤ 0
    · simp [sortedInsert, h]
    · simp [sortedInsert, h, ih]
      tauto

theorem mem_jsSort {x : String} {l : List String} : x ∈ jsSort l ↔ x ∈ l := by
  induction l with
  | nil => simp [jsSort]
  | cons a t ih => simp [jsSort, mem_sortedInsert, ih]

theorem pairwise_sortedInsert {a : String} {l : List String}
    (ha : isParsableTag a = true) (hl : ∀ x ∈ l, isParsableTag x = true)
    (hp : l.Pairwise (fun x y => latestSemVerFirst x y ≤ 0)) :
    (sortedInsert a l).Pairwise (fun x y => latestSemVerFirst x y ≤ 0) := by
  induction l with
  | nil => simp [sortedInsert]
  | cons b t ih =>
    rw [List.pairwise_cons] at hp
    obtain ⟨hbt, hpt⟩ := hp
    have hbp : isParsableTag b = true := hl b (List.mem_cons_self b t)
    have htp : ∀ x ∈ t, isParsableTag x = true := fun x hx => hl x (List.mem_cons_of_mem b hx)
    by_cases h : latestSemVerFirst a b ≤ 0
    · show List.Pairwise _ (if latestSemVerFirst a b ≤ 0 then a :: b :: t else _)
      rw [if_pos h, List.pairwise_cons]
      constructor
      · intro x hx
        rcases List.mem_cons.mp hx with hxb | hxt
        · rw [hxb]
          exact h
        · exact latestSemVerFirst_trans ha hbp (htp x hxt) h (hbt x hxt)
      · rw [List.pairwise_cons]
        exact ⟨hbt, hpt⟩
    · have hba : latestSemVerFirst b a ≤ 0 :=
        (latestSemVerFirst_total ha hbp).resolve_left h
      show List.Pairwise _ (if latestSemVerFirst a b ≤ 0 then _ else b :: sortedInsert a t)
      rw [if_neg h, List.pairwise_cons]
      constructor
      · intro x hx
        rcases mem_sortedInsert.mp hx with hxa | hxt
        · rw [hxa]
          exact hba
        · exact hbt x hxt
      · exact ih htp hpt

theorem pairwise_jsSort {l : List String} (hl : ∀ x ∈ l, isParsableTag x = true) :
    (jsSort l).Pairwise (fun x y => latestSemVerFirst x y ≤ 0) := by
  induction l with
  | nil => simp [jsSort]
  | cons a t ih =>
    show List.Pairwise _ (sortedInsert a (jsSort t))
    refine pairwise_sortedInsert (hl a (List.mem_cons_self a t)) ?_ ?_
    · intro x hx
      exact hl x (List.mem_cons_of_mem a (mem_jsSort.mp hx))
    · exact ih fun x hx => hl x (List.mem_cons_of_mem a hx)

theorem jsSort_head_max {l : List String} {v m : String}
    (hl : ∀ x ∈ l, isParsableTag x = true) (hv : v ∈ l)
    (hm : (jsSort l).head? = some m) : latestSemVerFirst m v ≤ 0 := by
  cases hjs : jsSort l with
  | nil =>
    rw [hjs] at hm
    simp at hm
  | cons h t =>
    rw [hjs] at hm
    simp at hm
    have hvm : v ∈ h :: t := by
      rw [← hjs]
      exact mem_jsSort.mpr hv
    have hpw := pairwise_jsSort hl
    rw [hjs, List.pairwise_cons] at hpw
    rw [← hm]
    rcases List.mem_cons.mp hvm with hveq | hvt
    · rw [hveq]
      refine latestSemVerFirst_self (hl h ?_)
      rw [← hveq]
      exact hv
    · exact hpw.1 v hvt

/-! ## Branch inventories of the provider model -/

theorem getVersions_error_code {includePre netFails : Bool} {status : Nat}
    {releases : List Release} {e : GHRErr}
    (h : (getVersions includePre netFails status releases).outcome = .error e) :
    e.code = 5 := by
  unfold getVersions at h
  by_cases hn : netFails = true
  · simp [hn] at h
    rw [← h]
  · by_cases hs : (status == 200) = true
    · simp [hn, hs] at h
    · simp [hn, hs] at h
      rw [← h]

theorem getOctokitAssetRequest_error {os : String} {m : List (String × String)}
    {assets : List ReleaseAsset} {e : GHRErr}
    (h : getOctokitAssetRequest os m assets = .error e) :
    e = { message := "Failed to find asset for current OS", code := 3 } := by
  unfold getOctokitAssetRequest at h
  dsimp only at h
  split at h
  · simp at h
    rw [← h]
  · simp at h

theorem installAll_error_code {stagingDir destinationDir : String} {fs : FS}
    {entries : List WalkEntry} {e : GHRErr}
    (h : installAll stagingDir destinationDir fs entries = .error e) : e.code = 8 := by
  induction entries generalizing fs with
  | nil => simp [installAll] at h
  | cons x rest ih =>
    unfold installAll at h
    cases hx : installEntry stagingDir destinationDir fs x with
    | ok fs2 =>
      rw [hx] at h
      exact ih h
    | error err =>
      rw [hx] at h
      simp at h
      unfold installEntry at hx
      by_cases hfile : x.isFile = true
      · rw [if_pos hfile] at hx
        dsimp only at hx
        split at hx
        all_goals simp at hx
        all_goals rw [← h, ← hx]
      · rw [if_neg hfile] at hx
        simp at hx

theorem assetPhase_error_codes {env : UpgradeEnv} {t f : Option String} {e : GHRErr}
    (h : (assetPhase env t f).2 = .error e) :
    e.code = 4 ∨ e.code = 6 ∨ e.code = 8 ∨ e.code = 1200 := by
  unfold assetPhase at h
  by_cases h1 : env.assetNetFails = true
  · simp [h1] at h
    rw [← h]
    exact Or.inl rfl
  · by_cases h2 : (env.assetStatus != 200) = true
    · simp [h1, h2] at h
      rw [← h]
      exact Or.inl rfl
    · have hs : env.assetStatus = 200 := by
        simpa using h2
      by_cases h3 : env.assetHasBody = true
      · by_cases h4 : env.inflateOk = true
        · simp [h1, h2, hs, h3, h4] at h
          cases hinst : installAll env.stagingDir env.destinationDir env.fs env.stagingWalk with
          | ok fs2 =>
            rw [hinst] at h
            simp at h
          | error err =>
            rw [hinst] at h
            simp at h
            rw [← h]
            exact Or.inr (Or.inr (Or.inl (installAll_error_code hinst)))
        · simp [h1, h2, hs, h3, h4] at h
          rw [← h]
          exact Or.inr (Or.inl rfl)
      · simp [h1, h2, hs, h3] at h
        rw [← h]
        refine Or.inr (Or.inr (Or.inr ?_))
        decide

theorem assetPhase_classify_status {env : UpgradeEnv} {t f : Option String} {s : Nat}
    {b : Bool} (h : Ev.classifyFail s b ∈ (assetPhase env t f).1) :
    s = 200 ∧ b = false := by
  unfold assetPhase at h
  by_cases h1 : env.assetNetFails = true
  · simp [h1] at h
  · by_cases h2 : (env.assetStatus != 200) = true
    · simp [h1, h2] at h
    · have hs : env.assetStatus = 200 := by
        simpa using h2
      by_cases h3 : env.assetHasBody = true
      · by_cases h4 : env.inflateOk = true
        · simp [h1, h2, hs, h3, h4] at h
          cases hinst : installAll env.stagingDir env.destinationDir env.fs env.stagingWalk with
          | ok fs2 =>
            rw [hinst] at h
            simp at h
          | error err =>
            rw [hinst] at h
            simp at h
        · simp [h1, h2, hs, h3, h4] at h
      · simp [h1, h2, hs, h3] at h
        exact ⟨h.1, h.2⟩

theorem upgrade_error_codes {env : UpgradeEnv} {t : String} {f : Option String} {e : GHRErr}
    (h : (upgrade env t f).2 = .error e) :
    e.code = 3 ∨ e.code = 4 ∨ e.code = 5 ∨ e.code = 6 ∨ e.code = 8 ∨ e.code = 1200 := by
  unfold upgrade at h
  dsimp only at h
  cases hgv : (getVersions env.includePrerelease env.listNetFails env.listStatus
      env.releases).outcome with
  | error e0 =>
    rw [hgv] at h
    simp at h
    rw [← h]
    exact Or.inr (Or.inr (Or.inl (getVersions_error_code hgv)))
  | ok vo =>
    rw [hgv] at h
    dsimp only at h
    by_cases hm : (env.metaStatus != 200) = true
    · simp [hm] at h
      rw [← h]
      exact Or.inr (Or.inl rfl)
    · simp [hm] at h
      cases har : getOctokitAssetRequest env.os env.osAssetMap env.releaseAssets with
      | error e3 =>
        rw [har] at h
        simp at h
        rw [← h, getOctokitAssetRequest_error har]
        exact Or.inl rfl
      | ok aid =>
        rw [har] at h
        simp at h
        rcases assetPhase_error_codes h with h4 | h6 | h8 | h12
        · exact Or.inr (Or.inl h4)
        · exact Or.inr (Or.inr (Or.inr (Or.inl h6)))
        · exact Or.inr (Or.inr (Or.inr (Or.inr (Or.inl h8))))
        · exact Or.inr (Or.inr (Or.inr (Or.inr (Or.inr h12))))

theorem upgrade_classify_status {env : UpgradeEnv} {t : String} {f : Option String}
    {s : Nat} {b : Bool} (h : Ev.classifyFail s b ∈ (upgrade env t f).1) :
    s = 200 ∧ b = false := by
  unfold upgrade at h
  dsimp only at h
  cases hgv : (getVersions env.includePrerelease env.listNetFails env.listStatus
      env.releases).outcome with
  | error e0 =>
    rw [hgv] at h
    simp at h
  | ok vo =>
    rw [hgv] at h
    dsimp only at h
    by_cases hm : (env.metaStatus != 200) = true
    · simp [hm] at h
    · simp [hm] at h
      cases har : getOctokitAssetRequest env.os env.osAssetMap env.releaseAssets with
      | error e3 =>
        rw [har] at h
        simp at h
      | ok aid =>
        rw [har] at h
        simp at h
        exact assetPhase_classify_status h

theorem getVersions_ok (includePre : Bool) (releases : List Release) :
    getVersions includePre false 200 releases
      = { hooks := [],
          outcome := .ok { versions := computeVersions includePre releases,
                           latest := (computeVersions includePre releases).head? } } := by
  simp [getVersions]

theorem getVersions_band (includePre : Bool) (releases : List Release) (status : Nat)
    (h200 : status ≠ 200) :
    ((getVersions includePre false status releases).hooks.map (fun e => e.code)
        = [listBandCode status, 5])
      ∧ (getVersions includePre false status releases).outcome
          = .error { message := "Network Error: Failed to fetch Release List from GitHub.",
                     code := 5, caughtCode := some (listBandCode status) } := by
  have hb : (status == 200) = false := by
    simpa using h200
  by_cases h404 : status = 404
  · subst h404
    simp [getVersions, listBandCode]
  · by_cases h403 : status = 403
    · subst h403
      simp [getVersions, listBandCode]
    · simp [getVersions, hb, h404, h403, listBandCode]

theorem upgrade_trace_meta {env : UpgradeEnv} {t : String} {f : Option String}
    {vo : GithubReleaseVersions}
    (hgv : (getVersions env.includePrerelease env.listNetFails env.listStatus
      env.releases).outcome = .ok vo) :
    Ev.netReleaseMeta (if t == "latest" then vo.latest else some t) env.metaStatus
      ∈ (upgrade env t f).1 := by
  unfold upgrade
  dsimp only
  rw [hgv]
  dsimp only
  by_cases hm : (env.metaStatus != 200) = true
  · simp [hm]
  · simp only [hm, Bool.false_eq_true, if_false]
    cases har : getOctokitAssetRequest env.os env.osAssetMap env.releaseAssets with
    | error e3 => simp
    | ok aid => simp

theorem upgrade_asset_status_fail {env : UpgradeEnv} {t : String} {f : Option String}
    (h1 : env.assetNetFails = false) (h2 : env.assetStatus ≠ 200)
    (h : Ev.netAssetFetch env.assetStatus ∈ (upgrade env t f).1) :
    (upgrade env t f).2
      = .error { message := "Network Error: Failed to fetch GitHub Release Asset",
                 code := 4, caughtCode := some 4 } := by
  have h2b : (env.assetStatus != 200) = true := by
    simpa using h2
  unfold upgrade at h ⊢
  dsimp only at h ⊢
  cases hgv : (getVersions env.includePrerelease env.listNetFails env.listStatus
      env.releases).outcome with
  | error e0 =>
    rw [hgv] at h
    simp at h
  | ok vo =>
    rw [hgv] at h
    dsimp only at h ⊢
    by_cases hm : (env.metaStatus != 200) = true
    · simp [hm] at h
    · simp [hm] at h ⊢
      cases har : getOctokitAssetRequest env.os env.osAssetMap env.releaseAssets with
      | error e3 =>
        rw [har] at h
        simp at h
      | ok aid =>
        unfold assetPhase
        simp [h1, h2b]

theorem upgrade_no_asset_shape (env : UpgradeEnv) (t : String) (f : Option String)
    (hl : env.listNetFails = false) (hs : env.listStatus = 200)
    (hm : env.metaStatus = 200)
    (hmap : assocLookup env.osAssetMap env.os = none) :
    upgrade env t f
      = ([Ev.netListReleases 200,
          Ev.netReleaseMeta
            (if t == "latest"
              then (computeVersions env.includePrerelease env.releases).head?
              else some t) 200],
         .error { message := "Failed to find asset for current OS", code := 3 }) := by
  have hfind : env.releaseAssets.find?
      (fun a => (some a.name : Option String) == assocLookup env.osAssetMap env.os)
        = none := by
    rw [List.find?_eq_none]
    intro x _
    simp [hmap]
  unfold upgrade getOctokitAssetRequest
  rw [hl, hs, getVersions_ok]
  dsimp only
  rw [hm, hfind]
  simp

/-! ## The claims -/

/-- Claim C1: for every regular file walked out of the staging directory, the
installer rebases the staging-relative path onto the destination directory,
renames any pre-existing destination file to the destination path plus the
stash suffix, then renames the staged file into the destination path; after a
successful install the destination path holds the new content and the stashed
sibling holds the previous content. -/
theorem C1_installer_round_trip
    (stagingDir destinationDir rel newContent oldContent : String) (fs : FS)
    (hstaged : fs.lookup (stagingDir ++ rel) = some newContent)
    (hold : fs.lookup (destinationDir ++ rel) = some oldContent)
    (hne1 : stagingDir ++ rel ≠ destinationDir ++ rel)
    (hne2 : stagingDir ++ rel ≠ destinationDir ++ rel ++ OLD_VERSION_TAG)
    (hne3 : destinationDir ++ rel ++ OLD_VERSION_TAG ≠ destinationDir ++ rel) :
    ∃ fs2, installEntry stagingDir destinationDir fs ⟨stagingDir ++ rel, true⟩ = .ok fs2
      ∧ fs2.lookup (destinationDir ++ rel) = some newContent
      ∧ fs2.lookup (destinationDir ++ rel ++ OLD_VERSION_TAG) = some oldContent := by
  unfold installEntry
  dsimp only
  rw [replaceFirst_append]
  unfold renameSync
  rw [hold]
  dsimp only
  have hlook1 : ((fs.erase (destinationDir ++ rel)).insert
      (destinationDir ++ rel ++ OLD_VERSION_TAG) oldContent).lookup (stagingDir ++ rel)
      = some newContent := by
    rw [FS.lookup_insert_ne _ _ _ _ hne2, FS.lookup_erase_ne _ _ _ hne1, hstaged]
  rw [hlook1]
  refine ⟨_, rfl, ?_, ?_⟩
  · exact FS.lookup_insert_self _ _ _
  · rw [FS.lookup_insert_ne _ _ _ _ hne3,
      FS.lookup_erase_ne _ _ _ (fun hh => hne2 hh.symm)]
    exact FS.lookup_insert_self _ _ _

/-- Witness for C1 at a concrete staging directory, destination directory and
pre-existing file. -/
theorem C1_installer_round_trip_witness :
    ∃ fs2, installEntry "/tmp/ghr" "/home/user/bin"
        [("/tmp/ghr" ++ "/bin/tool", "NEWBITS"), ("/home/user/bin" ++ "/bin/tool", "OLDBITS")]
        ⟨"/tmp/ghr" ++ "/bin/tool", true⟩ = .ok fs2
      ∧ fs2.lookup ("/home/user/bin" ++ "/bin/tool") = some "NEWBITS"
      ∧ fs2.lookup ("/home/user/bin" ++ "/bin/tool" ++ OLD_VERSION_TAG) = some "OLDBITS" :=
  C1_installer_round_trip "/tmp/ghr" "/home/user/bin" "/bin/tool" "NEWBITS" "OLDBITS"
    [("/tmp/ghr" ++ "/bin/tool", "NEWBITS"), ("/home/user/bin" ++ "/bin/tool", "OLDBITS")]
    (by decide) (by decide) (by decide) (by decide) (by decide)

/-- Claim C9: one reaper pass deletes exactly the entries whose path contains
the stash-suffix marker, and a second pass immediately afterwards is a no-op
(idempotence). -/
theorem C9_reaper_exact_and_idempotent (fs : FS) :
    cleanOldVersions fs = List.filter (fun e => !(pathHasOldTag e.1)) fs
      ∧ cleanOldVersions (cleanOldVersions fs) = cleanOldVersions fs := by
  refine ⟨cleanOldVersions_eq_filter fs, ?_⟩
  rw [cleanOldVersions_eq_filter fs, cleanOldVersions_eq_filter, List.filter_filter]
  apply List.filter_congr
  intro e _
  cases pathHasOldTag e.1 <;> rfl

/-- Claim C10: the response wrapper is only built after the asset request
returned 200, so the failure-classification branch sees status 200 and a
missing body, the codes 1404 and 1403 are never emitted, and a non-success
asset status always surfaces as error code 4. -/
theorem C10_asset_classification :
    (∀ (env : UpgradeEnv) (t : String) (f : Option String) (s : Nat) (b : Bool),
        Ev.classifyFail s b ∈ (upgrade env t f).1 → s = 200 ∧ b = false)
      ∧ (∀ (env : UpgradeEnv) (t : String) (f : Option String) (e : GHRErr),
          (upgrade env t f).2 = .error e → e.code ≠ 1404 ∧ e.code ≠ 1403)
      ∧ (∀ (env : UpgradeEnv) (t : String) (f : Option String),
          env.assetNetFails = false → env.assetStatus ≠ 200 →
          Ev.netAssetFetch env.assetStatus ∈ (upgrade env t f).1 →
          (upgrade env t f).2
            = .error { message := "Network Error: Failed to fetch GitHub Release Asset",
                       code := 4, caughtCode := some 4 }) := by
  refine ⟨?_, ?_, ?_⟩
  · intro env t f s b h
    exact upgrade_classify_status h
  · intro env t f e h
    rcases upgrade_error_codes h with h' | h' | h' | h' | h' | h' <;> omega
  · intro env t f h1 h2 h
    exact upgrade_asset_status_fail h1 h2 h

/-- Witness for C10: a missing-body run classifies at status 200, the
resulting code 1200 is neither 1404 nor 1403, and an HTTP-500 asset download
surfaces as code 4. -/
theorem C10_asset_classification_witness :
    ((200 : Nat) = 200 ∧ false = false)
      ∧ ((1200 : Nat) ≠ 1404 ∧ (1200 : Nat) ≠ 1403)
      ∧ (upgrade envAsset500 "1.0.0" none).2
          = .error { message := "Network Error: Failed to fetch GitHub Release Asset",
                     code := 4, caughtCode := some 4 } :=
  ⟨C10_asset_classification.1 envAssetNoBody "1.0.0" none 200 false (by decide),
   C10_asset_classification.2.1 envAssetNoBody "1.0.0" none
     { message := "GitHub Release Asset Request Failed", code := concatCode 1 200 } (by decide),
   C10_asset_classification.2.2 envAsset500 "1.0.0" none rfl (by decide) (by decide)⟩

/-- Claim C2 (code-bug evidence): the malformed-repository failure (code 1)
is thrown with no hook invocation, because the constructor assigns `onError`
only after the check, and the no-asset failure (code 3) is thrown from
`getOctokitAssetRequest` without any `onError` call: the run that ends in
code 3 emits no hook event at all. -/
theorem C2_hook_not_invoked_for_codes_1_and_3 :
    constructorRun "polyseamcndi"
        = { hookCalls := [],
            result := .error { message := "repository must be in the format owner/repo",
                               code := 1 } }
      ∧ upgrade envNoOsEntry "1.0.0" none
          = ([Ev.netListReleases 200, Ev.netReleaseMeta (some "1.0.0") 200],
             .error { message := "Failed to find asset for current OS", code := 3 }) :=
  ⟨by decide, by decide⟩

/-- Counterexample for C3: on a 404 release-list response the error thrown to
the caller has code 5 (the surrounding network-error handler re-wraps the
band error), not the release-list band code 2404 the claim requires. -/
theorem C3_counterexample :
    (getVersions false false 404 []).outcome
        = .error { message := "Network Error: Failed to fetch Release List from GitHub.",
                   code := 5, caughtCode := some 2404 }
      ∧ (5 : Nat) ≠ 2404 :=
  ⟨by decide, by decide⟩

/-- Claim C3 amended: on a non-success release-list status the sub-coded band
error (2404 / 2403 / decimal concatenation of 2 and the status) is built and
handed to the error hook, but it is then caught by the surrounding handler:
the hook fires twice (band error, then code 5) and the caller receives the
code-5 error carrying the band code in its `caught` metadata. -/
theorem C3_list_band_error_amended (includePre : Bool) (releases : List Release)
    (status : Nat) (h200 : status ≠ 200) :
    ((getVersions includePre false status releases).hooks.map (fun e => e.code)
        = [listBandCode status, 5])
      ∧ (getVersions includePre false status releases).outcome
          = .error { message := "Network Error: Failed to fetch Release List from GitHub.",
                     code := 5, caughtCode := some (listBandCode status) } :=
  getVersions_band includePre releases status h200

/-- Witness for C3 at status 500. -/
theorem C3_list_band_error_amended_witness :
    (500 : Nat) ≠ 200
      ∧ (((getVersions false false 500 []).hooks.map (fun e => e.code)
            = [listBandCode 500, 5])
          ∧ (getVersions false false 500 []).outcome
              = .error { message := "Network Error: Failed to fetch Release List from GitHub.",
                         code := 5, caughtCode := some (listBandCode 500) }) :=
  ⟨by decide, C3_list_band_error_amended false [] 500 (by decide)⟩

/-- Counterexample for C4: with an Asset Map lacking the running OS, the
upgrade run performs the release-list and release-metadata network calls and
only then signals the code-3 error — not before any network call. -/
theorem C4_counterexample :
    upgrade envNoOsEntry "latest" none
      = ([Ev.netListReleases 200, Ev.netReleaseMeta (some "1.0.0") 200],
         .error { message := "Failed to find asset for current OS", code := 3 })
      ∧ Ev.netListReleases 200 ∈ (upgrade envNoOsEntry "latest" none).1 :=
  ⟨by decide, by decide⟩

/-- Claim C4 amended: when the Asset Map has no entry for the running OS, the
code-3 error is signaled after the release-list and release-metadata fetches
succeed but before any asset-content fetch, and without any hook
invocation. -/
theorem C4_code3_after_metadata_before_asset_fetch (env : UpgradeEnv) (t : String)
    (f : Option String) (hl : env.listNetFails = false) (hs : env.listStatus = 200)
    (hm : env.metaStatus = 200) (hmap : assocLookup env.osAssetMap env.os = none) :
    (upgrade env t f).2
        = .error { message := "Failed to find asset for current OS", code := 3 }
      ∧ Ev.netListReleases 200 ∈ (upgrade env t f).1
      ∧ (∃ tg, Ev.netReleaseMeta tg 200 ∈ (upgrade env t f).1)
      ∧ (∀ s, Ev.netAssetFetch s ∉ (upgrade env t f).1)
      ∧ (∀ c, Ev.hookError c ∉ (upgrade env t f).1) := by
  rw [upgrade_no_asset_shape env t f hl hs hm hmap]
  refine ⟨rfl, by simp, ?_, ?_, ?_⟩
  · refine ⟨if (t == "latest") = true
      then (computeVersions env.includePrerelease env.releases).head? else some t, ?_⟩
    simp
  · intro s hsx
    simp at hsx
  · intro c hc
    simp at hc

/-- Witness for C4 at the concrete missing-OS environment. -/
theorem C4_code3_after_metadata_before_asset_fetch_witness :
    (upgrade envNoOsEntry "1.0.0" none).2
        = .error { message := "Failed to find asset for current OS", code := 3 }
      ∧ Ev.netListReleases 200 ∈ (upgrade envNoOsEntry "1.0.0" none).1
      ∧ (∃ tg, Ev.netReleaseMeta tg 200 ∈ (upgrade envNoOsEntry "1.0.0" none).1)
      ∧ (∀ s, Ev.netAssetFetch s ∉ (upgrade envNoOsEntry "1.0.0" none).1)
      ∧ (∀ c, Ev.hookError c ∉ (upgrade envNoOsEntry "1.0.0" none).1) :=
  C4_code3_after_metadata_before_asset_fetch envNoOsEntry "1.0.0" none
    rfl rfl rfl (by decide)

/-- Counterexample for C5: with an empty release list, `getVersions` succeeds
with an absent `latest`, and the upgrade run resolving "latest" proceeds —
through the release-metadata request with an absent tag and all later steps —
to completion, signaling no error at all. -/
theorem C5_counterexample :
    (getVersions false false 200 []).outcome = .ok { versions := [], latest := none }
      ∧ upgrade envEmptyReleases "latest" none
          = ([Ev.netListReleases 200, Ev.netReleaseMeta none 200, Ev.netAssetFetch 200,
              Ev.inflateCall, Ev.complete none none], .ok []) :=
  ⟨by decide, by decide⟩

/-- Claim C5 amended: an empty Version Set is not an error by itself —
`getVersions` returns it with `latest` absent — and resolving "latest"
against it substitutes the absent tag and proceeds to the release-metadata
request with that absent tag instead of signaling a resolution error. -/
theorem C5_empty_latest_proceeds (env : UpgradeEnv) (f : Option String)
    (hl : env.listNetFails = false) (hs : env.listStatus = 200)
    (hempty : computeVersions env.includePrerelease env.releases = []) :
    getVersions env.includePrerelease env.listNetFails env.listStatus env.releases
        = { hooks := [], outcome := .ok { versions := [], latest := none } }
      ∧ Ev.netReleaseMeta none env.metaStatus ∈ (upgrade env "latest" f).1 := by
  have hgv : getVersions env.includePrerelease env.listNetFails env.listStatus env.releases
      = { hooks := [], outcome := .ok { versions := [], latest := none } } := by
    rw [hl, hs, getVersions_ok, hempty]
    rfl
  refine ⟨hgv, ?_⟩
  have hmem := @upgrade_trace_meta env "latest" f
    { versions := [], latest := none } (by rw [hgv])
  simpa using hmem

/-- Witness for C5 at the concrete empty-release-list environment. -/
theorem C5_empty_latest_proceeds_witness :
    getVersions envEmptyReleases.includePrerelease envEmptyReleases.listNetFails
        envEmptyReleases.listStatus envEmptyReleases.releases
      = { hooks := [], outcome := .ok { versions := [], latest := none } }
      ∧ Ev.netReleaseMeta none envEmptyReleases.metaStatus
          ∈ (upgrade envEmptyReleases "latest" none).1 :=
  C5_empty_latest_proceeds envEmptyReleases none rfl rfl (by decide)

/-- Counterexample for C6: on the release list tagged
`["1.0.0", "weird", "2.0.0"]` the sort leaves the list in its original order,
`latest` resolves to `"1.0.0"`, and yet the comparator itself puts `"2.0.0"`
strictly before `"1.0.0"` in descending order — so the ordering among the
parsable tags is not restored and `latest` is not the semver maximum. -/
theorem C6_counterexample :
    computeVersions false
        [{ tag_name := "1.0.0", draft := false, prerelease := false },
         { tag_name := "weird", draft := false, prerelease := false },
         { tag_name := "2.0.0", draft := false, prerelease := false }]
      = ["1.0.0", "weird", "2.0.0"]
      ∧ (getVersions false false 200
          [{ tag_name := "1.0.0", draft := false, prerelease := false },
           { tag_name := "weird", draft := false, prerelease := false },
           { tag_name := "2.0.0", draft := false, prerelease := false }]).outcome
          = .ok { versions := ["1.0.0", "weird", "2.0.0"], latest := some "1.0.0" }
      ∧ latestSemVerFirst "1.0.0" "2.0.0" = 1
      ∧ isParsableTag "1.0.0" = true ∧ isParsableTag "2.0.0" = true
      ∧ isParsableTag "weird" = false :=
  ⟨by decide, by decide, by decide, by decide, by decide, by decide⟩

/-- Claim C6 amended: when every tag parses, the sorted Version Set is
pairwise descending under the comparator and its head is a semver maximum of
the list; the all-parsable example sorts to `["2.0.0","1.9.9","1.2.0"]`; with
an unparsable tag in the list the sort still completes, but the comparator
ties it with everything, so the list can keep its original order and the
parsable tags need not be re-ordered. -/
theorem C6_sort_amended :
    (∀ l : List String, (∀ s ∈ l, isParsableTag s = true) →
        (jsSort l).Pairwise (fun a b => latestSemVerFirst a b ≤ 0))
      ∧ (∀ (l : List String) (v m : String), (∀ s ∈ l, isParsableTag s = true) →
          v ∈ l → (jsSort l).head? = some m → latestSemVerFirst m v ≤ 0)
      ∧ jsSort ["1.2.0", "2.0.0", "1.9.9"] = ["2.0.0", "1.9.9", "1.2.0"]
      ∧ jsSort ["1.0.0", "weird", "2.0.0"] = ["1.0.0", "weird", "2.0.0"] := by
  refine ⟨?_, ?_, by decide, by decide⟩
  · intro l hl
    exact pairwise_jsSort hl
  · intro l v m hl hv hm
    exact jsSort_head_max hl hv hm

/-- Witness for C6: the general parts applied to the all-parsable example. -/
theorem C6_sort_amended_witness :
    (jsSort ["1.2.0", "2.0.0", "1.9.9"]).Pairwise (fun a b => latestSemVerFirst a b ≤ 0)
      ∧ latestSemVerFirst "2.0.0" "1.2.0" ≤ 0 :=
  ⟨C6_sort_amended.1 ["1.2.0", "2.0.0", "1.9.9"] (by decide),
   C6_sort_amended.2.1 ["1.2.0", "2.0.0", "1.9.9"] "1.2.0" "2.0.0"
     (by decide) (by decide) (by decide)⟩

/-- Counterexample for C7: a release flagged both draft and prerelease never
appears in the Version Set even with prerelease-inclusion enabled, so
"a prerelease release appears iff the option is enabled" fails. -/
theorem C7_counterexample :
    ({ tag_name := "1.0.0-rc.1", draft := true, prerelease := true } : Release).prerelease
        = true
      ∧ computeVersions true
          [{ tag_name := "1.0.0-rc.1", draft := true, prerelease := true }] = [] :=
  ⟨by decide, by decide⟩

/-- Claim C7 amended: the filter keeps a release exactly when it is not a
draft and, if flagged prerelease, the prerelease option is enabled; a tag is
in the Version Set exactly when some such release bears it (so drafts never
appear, and a non-draft prerelease appears iff the option is enabled). -/
theorem C7_filter_amended :
    (∀ (includePre : Bool) (r : Release),
        keepRelease includePre r = (!r.draft && (!r.prerelease || includePre)))
      ∧ (∀ (includePre : Bool) (releases : List Release) (t : String),
          t ∈ computeVersions includePre releases
            ↔ ∃ r ∈ releases, r.tag_name = t ∧ r.draft = false
                ∧ (r.prerelease = true → includePre = true)) := by
  have hkeep : ∀ (i : Bool) (r : Release), keepRelease i r = true
      ↔ (r.draft = false ∧ (r.prerelease = true → i = true)) := by
    intro i r
    unfold keepRelease
    cases r.draft <;> cases r.prerelease <;> cases i <;> simp
  constructor
  · intro i r
    unfold keepRelease
    cases r.draft <;> cases r.prerelease <;> cases i <;> simp
  · intro i rs t
    unfold computeVersions
    rw [mem_jsSort]
    simp only [List.mem_map, List.mem_filter]
    constructor
    · rintro ⟨r, ⟨hr, hk⟩, ht⟩
      exact ⟨r, hr, ht, ((hkeep i r).mp hk).1, ((hkeep i r).mp hk).2⟩
    · rintro ⟨r, hr, ht, hd, hp⟩
      exact ⟨r, ⟨hr, (hkeep i r).mpr ⟨hd, hp⟩⟩, ht⟩

/-- Witness for C7: the membership characterization evaluated on a concrete
mixed release list with prerelease-inclusion enabled. -/
theorem C7_filter_amended_witness :
    "1.0.0-rc.1" ∈ computeVersions true
        [{ tag_name := "1.0.0-rc.1", draft := false, prerelease := true }]
      ↔ ∃ r ∈ [({ tag_name := "1.0.0-rc.1", draft := false, prerelease := true } : Release)],
          r.tag_name = "1.0.0-rc.1" ∧ r.draft = false ∧ (r.prerelease = true → true = true) :=
  C7_filter_amended.2 true
    [{ tag_name := "1.0.0-rc.1", draft := false, prerelease := true }] "1.0.0-rc.1"

/-- Counterexample for C8: an Asset Map keyed by OS-architecture compound
keys is never consulted — the lookup uses the OS identifier alone — so even
with both compound-named assets present in the release the request
construction signals the code-3 no-asset error instead of resolving
per-architecture. -/
theorem C8_counterexample :
    getOctokitAssetRequest "linux"
        [("linux-x86_64", "tool-linux-amd64.tar.gz"),
         ("linux-aarch64", "tool-linux-arm64.tar.gz")]
        [{ name := "tool-linux-amd64.tar.gz", id := 1 },
         { name := "tool-linux-arm64.tar.gz", id := 2 }]
      = .error { message := "Failed to find asset for current OS", code := 3 } := by
  decide

/-- Claim C8 amended: the asset resolution is a pure function of the OS
identifier, the Asset Map and the release assets; an absent OS key (which is
what any compound-keyed map produces) signals the code-3 no-asset error, and
a present OS key whose mapped filename occurs among the release assets
resolves to the id of the first such asset. -/
theorem C8_resolver_amended :
    (∀ (os : String) (m : List (String × String)) (assets : List ReleaseAsset),
        assocLookup m os = none →
        getOctokitAssetRequest os m assets
          = .error { message := "Failed to find asset for current OS", code := 3 })
      ∧ (∀ (os : String) (m : List (String × String)) (assets : List ReleaseAsset)
            (name : String),
          assocLookup m os = some name → (∃ x ∈ assets, x.name = name) →
          ∃ a, a ∈ assets ∧ a.name = name
            ∧ getOctokitAssetRequest os m assets = .ok a.id) := by
  constructor
  · intro os m assets hmap
    unfold getOctokitAssetRequest
    dsimp only
    have hfind : assets.find?
        (fun a => (some a.name : Option String) == assocLookup m os) = none := by
      rw [List.find?_eq_none]
      intro x _
      simp [hmap]
    rw [hfind]
  · intro os m assets name hmap hex
    unfold getOctokitAssetRequest
    dsimp only
    have hsome : (assets.find?
        (fun a => (some a.name : Option String) == assocLookup m os)).isSome := by
      rw [List.find?_isSome]
      obtain ⟨x, hx, hxn⟩ := hex
      exact ⟨x, hx, by simp [hmap, hxn]⟩
    obtain ⟨a, ha⟩ := Option.isSome_iff_exists.mp hsome
    have hpred := List.find?_some ha
    refine ⟨a, List.mem_of_find?_eq_some ha, ?_, ?_⟩
    · simpa [hmap] using hpred
    · rw [ha]

/-- Witness for C8: an absent OS key on a compound-keyed map, and a present
OS key resolving to the mapped asset id. -/
theorem C8_resolver_amended_witness :
    getOctokitAssetRequest "linux" [("linux-x86_64", "a.tar.gz")] []
        = .error { message := "Failed to find asset for current OS", code := 3 }
      ∧ ∃ a, a ∈ [({ name := "l.tar.gz", id := 9 } : ReleaseAsset)] ∧ a.name = "l.tar.gz"
          ∧ getOctokitAssetRequest "linux" [("linux", "l.tar.gz")]
              [{ name := "l.tar.gz", id := 9 }] = .ok a.id :=
  ⟨C8_resolver_amended.1 "linux" [("linux-x86_64", "a.tar.gz")] [] (by decide),
   C8_resolver_amended.2 "linux" [("linux", "l.tar.gz")]
     [{ name := "l.tar.gz", id := 9 }] "l.tar.gz" (by decide)
     ⟨{ name := "l.tar.gz", id := 9 }, by decide, by decide⟩⟩
